import Mathlib

/-!
Verification of the ascii-raytracer ray-tracing core.

The C++ source (ascii-raytracer.cpp) is embedded shallowly: `float`
arithmetic is idealized over `ℝ`, `std::sqrt` becomes `Real.sqrt`,
`std::pow` becomes `Real.rpow`, and the global mutable sphere array is
passed explicitly as a `List Sphere` parameter (it is mutated between
frames by the animation step, so the intersection routines read whatever
the current list is).
-/

/-- Three-component vector, embedding `struct vec3`. -/
@[ext]
structure Vec3 where
  x : ℝ
  y : ℝ
  z : ℝ

namespace Vec3

/-- Embeds `vec3 operator*(const float v)`: componentwise scaling. -/
def smul (v : Vec3) (t : ℝ) : Vec3 := ⟨v.x * t, v.y * t, v.z * t⟩

/-- Embeds `float operator*(const vec3& v)`: dot product. -/
def dot (a b : Vec3) : ℝ := a.x * b.x + a.y * b.y + a.z * b.z

instance : Add Vec3 := ⟨fun a b => ⟨a.x + b.x, a.y + b.y, a.z + b.z⟩⟩
instance : Sub Vec3 := ⟨fun a b => ⟨a.x - b.x, a.y - b.y, a.z - b.z⟩⟩
instance : Neg Vec3 := ⟨fun a => ⟨-a.x, -a.y, -a.z⟩⟩

@[simp] theorem add_x (a b : Vec3) : (a + b).x = a.x + b.x := rfl

@[simp] theorem add_y (a b : Vec3) : (a + b).y = a.y + b.y := rfl

@[simp] theorem add_z (a b : Vec3) : (a + b).z = a.z + b.z := rfl

@[simp] theorem sub_x (a b : Vec3) : (a - b).x = a.x - b.x := rfl

@[simp] theorem sub_y (a b : Vec3) : (a - b).y = a.y - b.y := rfl

@[simp] theorem sub_z (a b : Vec3) : (a - b).z = a.z - b.z := rfl

@[simp] theorem neg_x (a : Vec3) : (-a).x = -a.x := rfl

@[simp] theorem neg_y (a : Vec3) : (-a).y = -a.y := rfl

@[simp] theorem neg_z (a : Vec3) : (-a).z = -a.z := rfl

@[simp] theorem smul_x (a : Vec3) (t : ℝ) : (a.smul t).x = a.x * t := rfl

@[simp] theorem smul_y (a : Vec3) (t : ℝ) : (a.smul t).y = a.y * t := rfl

@[simp] theorem smul_z (a : Vec3) (t : ℝ) : (a.smul t).z = a.z * t := rfl

/-- Embeds `float norm()`: Euclidean length. -/
noncomputable def norm (v : Vec3) : ℝ := Real.sqrt (dot v v)

/-- Embeds `vec3 normalized()`: `(*this) * (1.f / norm())`. -/
noncomputable def normalized (v : Vec3) : Vec3 := v.smul (1 / v.norm)

end Vec3

/-- Embeds `vec3 cross(const vec3 v1, const vec3 v2)`. -/
def cross (v1 v2 : Vec3) : Vec3 :=
  ⟨v1.y * v2.z - v1.z * v2.y, v1.z * v2.x - v1.x * v2.z, v1.x * v2.y - v1.y * v2.x⟩

/-- Embeds `struct Material` with the C++ default member initializers. -/
structure Material where
  refractive_index : ℝ := 1
  albedo : Fin 4 → ℝ := ![2, 0, 0, 0]
  diffuse_color : Vec3 := ⟨0, 0, 0⟩
  specular_exponent : ℝ := 0

/-- Embeds `struct Sphere`. -/
structure Sphere where
  center : Vec3
  radius : ℝ
  material : Material

def ivory : Material := ⟨1, ![0.9, 0.5, 0.1, 0.0], ⟨0.4, 0.4, 0.3⟩, 50⟩

def glass : Material := ⟨1.5, ![0.0, 0.9, 0.1, 0.8], ⟨0.6, 0.7, 0.8⟩, 125⟩

def red_rubber : Material := ⟨1, ![1.4, 0.3, 0.0, 0.0], ⟨0.3, 0.1, 0.1⟩, 10⟩

def mirror : Material := ⟨1, ![0.0, 16.0, 0.8, 0.0], ⟨1.0, 1.0, 1.0⟩, 1425⟩

/-- The initial contents of the global `spheres` array. -/
def spheres0 : List Sphere :=
  [⟨⟨-3, 0, -16⟩, 2, ivory⟩, ⟨⟨-1, -1.5, -12⟩, 2, glass⟩,
   ⟨⟨1.5, -0.5, -18⟩, 3, red_rubber⟩, ⟨⟨7, 5, -18⟩, 4, mirror⟩]

/-- The constant `lights` array. -/
def lights0 : List Vec3 := [⟨-20, 20, 20⟩, ⟨30, 50, -25⟩, ⟨30, 20, 30⟩]

/-- Embeds `vec3 reflect(const vec3& I, const vec3& N)`: `I - N * 2.f * (I * N)`. -/
def reflect (I N : Vec3) : Vec3 := I - (N.smul 2).smul (Vec3.dot I N)

/-- The clamped cosine `-std::max(-1.f, std::min(1.f, I * N))` from `refract`. -/
def clampCos (I N : Vec3) : ℝ := -(max (-1) (min 1 (Vec3.dot I N)))

/-- The non-recursive tail of `refract`, run once the entering/exiting
orientation has been fixed: Snell construction with fallback `{1,0,0}`
when the discriminant `k` is negative. -/
noncomputable def refract_body (I N : Vec3) (eta_t eta_i cosi : ℝ) : Vec3 :=
  let eta := eta_i / eta_t
  let k := 1 - eta * eta * (1 - cosi * cosi)
  if k < 0 then ⟨1, 0, 0⟩ else I.smul eta + N.smul (eta * cosi - Real.sqrt k)

/-- Embeds `vec3 refract(const vec3& I, const vec3& N, const float eta_t, const float eta_i)`.
The C++ function recurses once (with `-N` and swapped indices) when
`cosi < 0`; in the recursive call the clamped cosine is nonnegative, so
that call takes the non-recursive branch.  The recursion is therefore
unfolded once here; `refract_inside_eq` below proves the source's
recursive equation holds of this definition. -/
noncomputable def refract (I N : Vec3) (eta_t eta_i : ℝ) : Vec3 :=
  if clampCos I N < 0 then refract_body I (-N) eta_i eta_t (clampCos I (-N))
  else refract_body I N eta_t eta_i (clampCos I N)

theorem clampCos_neg_right (I N : Vec3) : clampCos I (-N) = -clampCos I N := by
  unfold clampCos
  have hdot : Vec3.dot I (-N) = -(Vec3.dot I N) := by
    simp [Vec3.dot]; ring
  rw [hdot]
  simp only [min_def, max_def]
  split_ifs <;> linarith

/-- The recursive equation of the C++ `refract` holds of the unfolded
definition: when the ray comes from inside (`cosi < 0`), the result is
the `refract` call with the normal flipped and the indices swapped. -/
theorem refract_inside_eq (I N : Vec3) (eta_t eta_i : ℝ) (h : clampCos I N < 0) :
    refract I N eta_t eta_i = refract I (-N) eta_i eta_t := by
  have h2 : ¬ clampCos I (-N) < 0 := by
    rw [clampCos_neg_right]; linarith
  unfold refract
  rw [if_pos h, if_neg h2]

/-- C9: reflection about a unit normal preserves unit length and is an
involution: for unit `N` and unit `I`, `reflect I N` has norm 1 and
`reflect (reflect I N) N = I`. -/
theorem reflect_unit_involution (I N : Vec3)
    (hI : Vec3.dot I I = 1) (hN : Vec3.dot N N = 1) :
    (reflect I N).norm = 1 ∧ reflect (reflect I N) N = I := by
  obtain ⟨ix, iy, iz⟩ := I
  obtain ⟨nx, ny, nz⟩ := N
  simp only [Vec3.dot] at hI hN
  constructor
  · have hdot : Vec3.dot (reflect ⟨ix, iy, iz⟩ ⟨nx, ny, nz⟩)
        (reflect ⟨ix, iy, iz⟩ ⟨nx, ny, nz⟩) = 1 := by
      simp only [reflect, Vec3.dot, Vec3.smul, Vec3.sub_x, Vec3.sub_y, Vec3.sub_z]
      linear_combination hI + (4 * (ix * nx + iy * ny + iz * nz) ^ 2) * hN
    rw [Vec3.norm, hdot, Real.sqrt_one]
  · ext
    · simp only [reflect, Vec3.dot, Vec3.smul, Vec3.sub_x, Vec3.sub_y, Vec3.sub_z]
      linear_combination (4 * (ix * nx + iy * ny + iz * nz) * nx) * hN
    · simp only [reflect, Vec3.dot, Vec3.smul, Vec3.sub_x, Vec3.sub_y, Vec3.sub_z]
      linear_combination (4 * (ix * nx + iy * ny + iz * nz) * ny) * hN
    · simp only [reflect, Vec3.dot, Vec3.smul, Vec3.sub_x, Vec3.sub_y, Vec3.sub_z]
      linear_combination (4 * (ix * nx + iy * ny + iz * nz) * nz) * hN

/-- C9 witness at `I = (1,0,0)`, `N = (0,1,0)`. -/
theorem reflect_unit_involution_witness :
    (reflect ⟨1, 0, 0⟩ ⟨0, 1, 0⟩).norm = 1 ∧
      reflect (reflect ⟨1, 0, 0⟩ ⟨0, 1, 0⟩) ⟨0, 1, 0⟩ = ⟨1, 0, 0⟩ :=
  reflect_unit_involution ⟨1, 0, 0⟩ ⟨0, 1, 0⟩
    (by simp [Vec3.dot]) (by simp [Vec3.dot])

/-- C2 counterexample: with `I = (0,1,0)`, `N = (0,0,1)`, `eta_t = 1`,
`eta_i = 2`, the discriminant is `1 - 4 = -3 < 0`, and `refract` returns
`(1,0,0)`, not the incident direction `I = (0,1,0)`. -/
theorem refract_tir_counterexample :
    refract ⟨0, 1, 0⟩ ⟨0, 0, 1⟩ 1 2 ≠ ⟨0, 1, 0⟩ := by
  have hc : clampCos ⟨0, 1, 0⟩ ⟨0, 0, 1⟩ = 0 := by
    norm_num [clampCos, Vec3.dot]
  have : refract ⟨0, 1, 0⟩ ⟨0, 0, 1⟩ 1 2 = ⟨1, 0, 0⟩ := by
    unfold refract
    rw [if_neg (by rw [hc]; norm_num), hc]
    unfold refract_body
    norm_num
  rw [this]
  intro h
  have := congrArg Vec3.x h
  norm_num at this

/-- C2 (amended): whenever the discriminant `k` of the executed branch is
negative (total internal reflection), `refract` returns the fixed
fallback vector `(1, 0, 0)` rather than failing; both the direct branch
and the flipped (inside) branch are covered. -/
theorem refract_tir_fallback (I N : Vec3) (eta_t eta_i : ℝ)
    (h1 : ¬ clampCos I N < 0)
    (h2 : 1 - (eta_i / eta_t) * (eta_i / eta_t) *
      (1 - clampCos I N * clampCos I N) < 0) :
    refract I N eta_t eta_i = ⟨1, 0, 0⟩ := by
  unfold refract
  rw [if_neg h1]
  unfold refract_body
  simp only []
  rw [if_pos h2]

/-- C2 witness: the amended fallback evaluated at `I = (0,1,0)`,
`N = (0,0,1)`, `eta_t = 1`, `eta_i = 2`. -/
theorem refract_tir_fallback_witness :
    refract ⟨0, 1, 0⟩ ⟨0, 0, 1⟩ 1 2 = ⟨1, 0, 0⟩ :=
  refract_tir_fallback ⟨0, 1, 0⟩ ⟨0, 0, 1⟩ 1 2
    (by norm_num [clampCos, Vec3.dot])
    (by norm_num [clampCos, Vec3.dot])

/-- Embeds `std::tuple<bool, float> ray_sphere_intersect(orig, dir, s)`. -/
noncomputable def ray_sphere_intersect (orig dir : Vec3) (s : Sphere) : Bool × ℝ :=
  let L := s.center - orig
  let tca := Vec3.dot L dir
  let d2 := Vec3.dot L L - tca * tca
  if d2 > s.radius * s.radius then (false, 0)
  else
    let thc := Real.sqrt (s.radius * s.radius - d2)
    let t0 := tca - thc
    let t1 := tca + thc
    if t0 > 0.001 then (true, t0)
    else if t1 > 0.001 then (true, t1)
    else (false, 0)

/-- Modelled from the spec's words (§4.1, sphere test) for the C5
refinement: projection-and-discriminant ray-sphere intersection with
near distance `tca - thc`, far distance `tca + thc`, and the
self-intersection epsilon `0.001`. -/
noncomputable def raySphereIntersectSpec (orig dir : Vec3) (s : Sphere) : Bool × ℝ :=
  let L := s.center - orig
  let tca := Vec3.dot L dir
  let d2 := Vec3.dot L L - tca * tca
  if d2 > s.radius * s.radius then (false, 0)
  else
    let tNear := tca - Real.sqrt (s.radius * s.radius - d2)
    let tFar := tca + Real.sqrt (s.radius * s.radius - d2)
    if tNear > 0.001 then (true, tNear)
    else if tFar > 0.001 then (true, tFar)
    else (false, 0)

/-- Any accepted distance of `ray_sphere_intersect` exceeds the epsilon
and puts the ray point exactly on the sphere surface (for a unit
direction). -/
theorem ray_sphere_hit_on_sphere (orig dir : Vec3) (s : Sphere) (t : ℝ)
    (hdir : Vec3.dot dir dir = 1)
    (h : ray_sphere_intersect orig dir s = (true, t)) :
    0.001 < t ∧
      Vec3.dot (orig + dir.smul t - s.center) (orig + dir.smul t - s.center) =
        s.radius * s.radius := by
  unfold ray_sphere_intersect at h
  set L := s.center - orig with hL
  set tca := Vec3.dot L dir with htca
  set d2 := Vec3.dot L L - tca * tca with hd2
  by_cases hdisc : d2 > s.radius * s.radius
  · rw [if_pos hdisc] at h
    exact absurd (congrArg Prod.fst h) (by simp)
  · rw [if_neg hdisc] at h
    set thc := Real.sqrt (s.radius * s.radius - d2) with hthc
    have hthc2 : thc * thc = s.radius * s.radius - d2 := by
      rw [hthc]
      exact Real.mul_self_sqrt (by linarith)
    have key : ∀ u : ℝ, u = tca - thc ∨ u = tca + thc →
        Vec3.dot (orig + dir.smul u - s.center) (orig + dir.smul u - s.center) =
          s.radius * s.radius := by
      intro u hu
      have hexp : Vec3.dot (orig + dir.smul u - s.center)
          (orig + dir.smul u - s.center) =
          u * u * Vec3.dot dir dir - 2 * u * tca + Vec3.dot L L := by
        obtain ⟨ox, oy, oz⟩ := orig
        obtain ⟨dx, dy, dz⟩ := dir
        obtain ⟨⟨cx, cy, cz⟩, r, m⟩ := s
        simp only [hL, htca, Vec3.dot, Vec3.smul, Vec3.add_x, Vec3.add_y,
          Vec3.add_z, Vec3.sub_x, Vec3.sub_y, Vec3.sub_z, Vec3.smul_x,
          Vec3.smul_y, Vec3.smul_z]
        ring
      rw [hexp, hdir]
      rcases hu with hu | hu <;>
        · rw [hu, hd2] at *
          nlinarith [hthc2]
    by_cases h0 : tca - thc > 0.001
    · rw [if_pos h0] at h
      have ht : t = tca - thc := (Prod.mk.injEq _ _ _ _ ▸ h).2.symm
      exact ⟨ht ▸ h0, key t (Or.inl ht)⟩
    · rw [if_neg h0] at h
      by_cases h1 : tca + thc > 0.001
      · rw [if_pos h1] at h
        have ht : t = tca + thc := (Prod.mk.injEq _ _ _ _ ▸ h).2.symm
        exact ⟨ht ▸ h1, key t (Or.inr ht)⟩
      · rw [if_neg h1] at h
        exact absurd (congrArg Prod.fst h) (by simp)

/-- C5: `ray_sphere_intersect` coincides with the spec's
projection-and-discriminant description, and every reported hit distance
exceeds the epsilon `0.001` and places the ray point on the sphere
surface (for unit directions). -/
theorem ray_sphere_intersect_correct (orig dir : Vec3) (s : Sphere) :
    ray_sphere_intersect orig dir s = raySphereIntersectSpec orig dir s ∧
      (∀ t : ℝ, Vec3.dot dir dir = 1 →
        ray_sphere_intersect orig dir s = (true, t) →
        0.001 < t ∧
          Vec3.dot (orig + dir.smul t - s.center)
            (orig + dir.smul t - s.center) = s.radius * s.radius) :=
  ⟨rfl, fun t hdir h => ray_sphere_hit_on_sphere orig dir s t hdir h⟩

/-- C5 witness: the unit sphere at `(0,0,-5)` hit from the origin along
`(0,0,-1)` at distance 4, which lies on the surface. -/
theorem ray_sphere_intersect_correct_witness :
    ray_sphere_intersect ⟨0, 0, 0⟩ ⟨0, 0, -1⟩ ⟨⟨0, 0, -5⟩, 1, {}⟩ = (true, 4) ∧
      (0.001 : ℝ) < 4 ∧
        Vec3.dot ((⟨0, 0, 0⟩ : Vec3) + Vec3.smul ⟨0, 0, -1⟩ 4 - ⟨0, 0, -5⟩)
          ((⟨0, 0, 0⟩ : Vec3) + Vec3.smul ⟨0, 0, -1⟩ 4 - ⟨0, 0, -5⟩) = 1 * 1 := by
  have hh : ray_sphere_intersect ⟨0, 0, 0⟩ ⟨0, 0, -1⟩ ⟨⟨0, 0, -5⟩, 1, {}⟩ =
      (true, 4) := by
    unfold ray_sphere_intersect
    norm_num [Vec3.dot, Real.sqrt_one]
  exact ⟨hh, (ray_sphere_intersect_correct ⟨0, 0, 0⟩ ⟨0, 0, -1⟩
    ⟨⟨0, 0, -5⟩, 1, {}⟩).2 4 (by norm_num [Vec3.dot]) hh⟩

/-- The C++ `int(...)` cast on a float: truncation toward zero. -/
noncomputable def cppInt (r : ℝ) : ℤ := if 0 ≤ r then ⌊r⌋ else ⌈r⌉

/-- The checkerboard shade chosen at plane hit point `p`:
`(int(.5 * pt.x + 1000) + int(.5 * pt.z)) & 1 ? {.3,.3,.3} : {.3,.2,.1}`
(`v & 1` on a C++ `int` is 1 exactly when `v` is odd). -/
noncomputable def checkerColor (p : Vec3) : Vec3 :=
  if (cppInt (0.5 * p.x + 1000) + cppInt (0.5 * p.z)) % 2 = 1
  then ⟨0.3, 0.3, 0.3⟩ else ⟨0.3, 0.2, 0.1⟩

/-- The running nearest-hit record of `scene_intersect`
(`nearest_dist`, `pt`, `N`, `material` locals). -/
structure HitState where
  nearest_dist : ℝ
  pt : Vec3
  n : Vec3
  material : Material

/-- The initial record: `nearest_dist = 1e10`, value-initialized `pt`,
`N` and default-constructed `material`. -/
def initHitState : HitState := ⟨1e10, ⟨0, 0, 0⟩, ⟨0, 0, 0⟩, {}⟩

/-- The checkerboard-plane branch of `scene_intersect`: only evaluated
when `|dir.y| > .001`; the plane `y = -4` is hit at distance
`d = -(orig.y + 4) / dir.y`, accepted if `d > .001`, `d < nearest_dist`
and the point lies in the bounded region `|x| < 10`, `-30 < z < -10`;
on acceptance only `material.diffuse_color` is modified. -/
noncomputable def planeStep (orig dir : Vec3) (st : HitState) : HitState :=
  if |dir.y| > 0.001 then
    let d := -(orig.y + 4) / dir.y
    let p := orig + dir.smul d
    if d > 0.001 ∧ d < st.nearest_dist ∧ |p.x| < 10 ∧ p.z < -10 ∧ p.z > -30 then
      ⟨d, p, ⟨0, 1, 0⟩, { st.material with diffuse_color := checkerColor p }⟩
    else st
  else st

/-- One iteration of the sphere loop of `scene_intersect`: the candidate
is skipped when `!intersection || d > nearest_dist`; otherwise it
replaces the record. -/
noncomputable def sphereStep (orig dir : Vec3) (st : HitState) (s : Sphere) : HitState :=
  let r := ray_sphere_intersect orig dir s
  if r.1 = false ∨ r.2 > st.nearest_dist then st
  else
    ⟨r.2, orig + dir.smul r.2,
      (orig + dir.smul r.2 - s.center).normalized, s.material⟩

/-- Embeds `std::tuple<bool, vec3, vec3, Material> scene_intersect(orig, dir)`,
with the global `spheres` array passed explicitly.  The hit flag is
`nearest_dist < 1000`. -/
noncomputable def scene_intersect (spheres : List Sphere) (orig dir : Vec3) :
    Bool × Vec3 × Vec3 × Material :=
  let st := spheres.foldl (sphereStep orig dir) (planeStep orig dir initHitState)
  (decide (st.nearest_dist < 1000), st.pt, st.n, st.material)

/-- Evaluation helper for `cppInt` on nonnegative inputs. -/
theorem cppInt_eq_of_nonneg {r : ℝ} {n : ℤ} (h0 : 0 ≤ r)
    (h1 : (n : ℝ) ≤ r) (h2 : r < n + 1) : cppInt r = n := by
  rw [cppInt, if_pos h0, Int.floor_eq_iff]
  exact ⟨h1, h2⟩

/-- Evaluation helper for `cppInt` on negative inputs (truncation toward
zero is the ceiling there). -/
theorem cppInt_eq_of_neg {r : ℝ} {n : ℤ} (h0 : r < 0)
    (h1 : (n : ℝ) - 1 < r) (h2 : r ≤ n) : cppInt r = n := by
  rw [cppInt, if_neg (not_le.mpr h0), Int.ceil_eq_iff]
  exact ⟨h1, h2⟩

theorem cppInt_add_one_of_nonneg {r : ℝ} (h : 0 ≤ r) :
    cppInt (r + 1) = cppInt r + 1 := by
  rw [cppInt, cppInt, if_pos h, if_pos (by linarith), Int.floor_add_one]

theorem cppInt_add_one_of_nonpos {r : ℝ} (h : r + 1 ≤ 0) :
    cppInt (r + 1) = cppInt r + 1 := by
  rcases eq_or_lt_of_le h with heq | hlt
  · have hr : r = -1 := by linarith
    subst hr
    have h1 : cppInt (-1 + 1 : ℝ) = 0 := cppInt_eq_of_nonneg (by norm_num)
      (by norm_num) (by norm_num)
    have h2 : cppInt (-1 : ℝ) = -1 := cppInt_eq_of_neg (by norm_num)
      (by norm_num) (by norm_num)
    rw [h1, h2]
    norm_num
  · rw [cppInt, cppInt, if_neg (not_le.mpr hlt), if_neg (by intro h'; linarith),
      Int.ceil_add_one]

/-- Two points whose code-parity sums differ by one get different
checkerboard shades. -/
theorem checkerColor_flip {p q : Vec3}
    (h : cppInt (0.5 * q.x + 1000) + cppInt (0.5 * q.z) =
      cppInt (0.5 * p.x + 1000) + cppInt (0.5 * p.z) + 1) :
    checkerColor q ≠ checkerColor p := by
  unfold checkerColor
  rw [h]
  by_cases hp : (cppInt (0.5 * p.x + 1000) + cppInt (0.5 * p.z)) % 2 = 1
  · rw [if_pos hp, if_neg (by omega)]
    intro heq
    have := congrArg Vec3.y heq
    norm_num at this
  · rw [if_neg hp, if_pos (by omega)]
    intro heq
    have := congrArg Vec3.y heq
    norm_num at this

/-- Invariant preservation along a left fold. -/
theorem foldl_invariant {α β : Type} (f : β → α → β) (P : β → Prop)
    (l : List α) (init : β) (h0 : P init)
    (hstep : ∀ b a, a ∈ l → P b → P (f b a)) : P (l.foldl f init) := by
  induction l generalizing init with
  | nil => exact h0
  | cons a l ih =>
    exact ih (f init a) (hstep init a (List.mem_cons_self a l) h0)
      (fun b a' ha' hb => hstep b a' (List.mem_cons_of_mem a ha') hb)

/-- A sphere candidate that reports no intersection leaves the record
unchanged. -/
theorem sphereStep_skip_of_miss {orig dir : Vec3} {st : HitState} {s : Sphere}
    (h : (ray_sphere_intersect orig dir s).1 = false) :
    sphereStep orig dir st s = st := by
  unfold sphereStep
  rw [if_pos (Or.inl h)]

/-- A sphere candidate whose distance is farther than the current record
leaves the record unchanged. -/
theorem sphereStep_skip_of_far {orig dir : Vec3} {st : HitState} {s : Sphere}
    (h : (ray_sphere_intersect orig dir s).2 > st.nearest_dist) :
    sphereStep orig dir st s = st := by
  unfold sphereStep
  rw [if_pos (Or.inr h)]

/-- A sphere candidate that intersects at a distance less than or equal
to the current record replaces it. -/
theorem sphereStep_replace {orig dir : Vec3} {st : HitState} {s : Sphere} {t : ℝ}
    (h : ray_sphere_intersect orig dir s = (true, t))
    (hle : t ≤ st.nearest_dist) :
    sphereStep orig dir st s =
      ⟨t, orig + dir.smul t, (orig + dir.smul t - s.center).normalized,
        s.material⟩ := by
  unfold sphereStep
  rw [h, if_neg]
  simp [not_lt.mpr hle]

/-- Distinct materials used to exhibit the tie-breaking behavior of the
nearest-hit scan. -/
def matRed : Material := { diffuse_color := ⟨1, 0, 0⟩ }

def matGreen : Material := { diffuse_color := ⟨0, 1, 0⟩ }

/-- Two coincident unit spheres at `(0,0,-5)` with different materials:
a ray from the origin along `(0,0,-1)` hits both at exactly distance 4. -/
def tieA : Sphere := ⟨⟨0, 0, -5⟩, 1, matRed⟩

def tieB : Sphere := ⟨⟨0, 0, -5⟩, 1, matGreen⟩

theorem ray_sphere_tieA :
    ray_sphere_intersect ⟨0, 0, 0⟩ ⟨0, 0, -1⟩ tieA = (true, 4) := by
  unfold ray_sphere_intersect tieA
  norm_num [Vec3.dot, Real.sqrt_one]

theorem ray_sphere_tieB :
    ray_sphere_intersect ⟨0, 0, 0⟩ ⟨0, 0, -1⟩ tieB = (true, 4) := by
  unfold ray_sphere_intersect tieB
  norm_num [Vec3.dot, Real.sqrt_one]

/-- C3 counterexample: both `tieA` (earlier in scan order) and `tieB`
(later) intersect the ray at exactly distance 4, yet `scene_intersect`
returns the later sphere's material: an exactly equal distance does
override the earlier hit, so the earlier hit is not kept. -/
theorem scene_tie_counterexample :
    ray_sphere_intersect ⟨0, 0, 0⟩ ⟨0, 0, -1⟩ tieA = (true, 4) ∧
    ray_sphere_intersect ⟨0, 0, 0⟩ ⟨0, 0, -1⟩ tieB = (true, 4) ∧
    (scene_intersect [tieA, tieB] ⟨0, 0, 0⟩ ⟨0, 0, -1⟩).1 = true ∧
    (scene_intersect [tieA, tieB] ⟨0, 0, 0⟩ ⟨0, 0, -1⟩).2.2.2 = matGreen ∧
    matGreen ≠ matRed := by
  have hplane : planeStep ⟨0, 0, 0⟩ ⟨0, 0, -1⟩ initHitState = initHitState := by
    unfold planeStep
    norm_num
  have hne : matGreen ≠ matRed := by
    intro h
    have := congrArg (fun m => m.diffuse_color.x) h
    norm_num [matGreen, matRed] at this
  refine ⟨ray_sphere_tieA, ray_sphere_tieB, ?_, ?_, hne⟩ <;>
  · unfold scene_intersect
    rw [List.foldl_cons, List.foldl_cons, List.foldl_nil, hplane,
      sphereStep_replace ray_sphere_tieA (by norm_num [initHitState]),
      sphereStep_replace ray_sphere_tieB (by norm_num)]
    norm_num [tieB]

/-- C3 (amended): in the nearest-hit scan a later candidate is skipped
only when it misses or its distance is strictly greater than the current
nearest distance; a candidate whose distance is less than or equal to
the current nearest (including an exact tie) replaces the recorded
point, normal and material, so on ties the later candidate in scan order
wins. -/
theorem sphere_scan_tie_overrides (orig dir : Vec3) (st : HitState) (s : Sphere) :
    ((ray_sphere_intersect orig dir s).1 = true ∧
        (ray_sphere_intersect orig dir s).2 ≤ st.nearest_dist →
      sphereStep orig dir st s =
        ⟨(ray_sphere_intersect orig dir s).2,
          orig + dir.smul (ray_sphere_intersect orig dir s).2,
          (orig + dir.smul (ray_sphere_intersect orig dir s).2 -
            s.center).normalized,
          s.material⟩) ∧
    ((ray_sphere_intersect orig dir s).1 = false ∨
        (ray_sphere_intersect orig dir s).2 > st.nearest_dist →
      sphereStep orig dir st s = st) := by
  constructor
  · rintro ⟨h1, h2⟩
    have h : ray_sphere_intersect orig dir s =
        (true, (ray_sphere_intersect orig dir s).2) := by
      rw [← h1]
    exact sphereStep_replace h h2
  · rintro (h | h)
    · exact sphereStep_skip_of_miss h
    · exact sphereStep_skip_of_far h

/-- C3 witness: the tie at distance 4 makes `sphereStep` replace a
record whose nearest distance is already exactly 4. -/
theorem sphere_scan_tie_overrides_witness :
    sphereStep ⟨0, 0, 0⟩ ⟨0, 0, -1⟩ ⟨4, ⟨0, 0, -4⟩, ⟨0, 0, 1⟩, matRed⟩ tieB =
      ⟨(ray_sphere_intersect ⟨0, 0, 0⟩ ⟨0, 0, -1⟩ tieB).2,
        (⟨0, 0, 0⟩ : Vec3) +
          Vec3.smul ⟨0, 0, -1⟩ (ray_sphere_intersect ⟨0, 0, 0⟩ ⟨0, 0, -1⟩ tieB).2,
        ((⟨0, 0, 0⟩ : Vec3) +
          Vec3.smul ⟨0, 0, -1⟩ (ray_sphere_intersect ⟨0, 0, 0⟩ ⟨0, 0, -1⟩ tieB).2 -
            tieB.center).normalized,
        tieB.material⟩ :=
  (sphere_scan_tie_overrides ⟨0, 0, 0⟩ ⟨0, 0, -1⟩
    ⟨4, ⟨0, 0, -4⟩, ⟨0, 0, 1⟩, matRed⟩ tieB).1
    ⟨by rw [ray_sphere_tieB], by rw [ray_sphere_tieB]⟩

@[simp] theorem Vec3.add_def (a b : Vec3) :
    a + b = ⟨a.x + b.x, a.y + b.y, a.z + b.z⟩ := rfl

@[simp] theorem Vec3.sub_def (a b : Vec3) :
    a - b = ⟨a.x - b.x, a.y - b.y, a.z - b.z⟩ := rfl

theorem checker_at_A : checkerColor ⟨0, -4, -15⟩ = ⟨0.3, 0.3, 0.3⟩ := by
  unfold checkerColor
  rw [show (0.5 * (⟨0, -4, -15⟩ : Vec3).x + 1000) = (1000 : ℝ) by norm_num,
    show (0.5 * (⟨0, -4, -15⟩ : Vec3).z) = (-7.5 : ℝ) by norm_num,
    cppInt_eq_of_nonneg (n := 1000) (by norm_num) (by norm_num) (by norm_num),
    cppInt_eq_of_neg (n := -7) (by norm_num) (by norm_num) (by norm_num)]
  norm_num

theorem checker_at_B : checkerColor ⟨0.6, -4, -15⟩ = ⟨0.3, 0.3, 0.3⟩ := by
  unfold checkerColor
  rw [show (0.5 * (⟨0.6, -4, -15⟩ : Vec3).x + 1000) = (1000.3 : ℝ) by norm_num,
    show (0.5 * (⟨0.6, -4, -15⟩ : Vec3).z) = (-7.5 : ℝ) by norm_num,
    cppInt_eq_of_nonneg (n := 1000) (by norm_num) (by norm_num) (by norm_num),
    cppInt_eq_of_neg (n := -7) (by norm_num) (by norm_num) (by norm_num)]
  norm_num

theorem checker_at_C : checkerColor ⟨-8, -4, -16⟩ = ⟨0.3, 0.2, 0.1⟩ := by
  unfold checkerColor
  rw [show (0.5 * (⟨-8, -4, -16⟩ : Vec3).x + 1000) = (996 : ℝ) by norm_num,
    show (0.5 * (⟨-8, -4, -16⟩ : Vec3).z) = (-8 : ℝ) by norm_num,
    cppInt_eq_of_nonneg (n := 996) (by norm_num) (by norm_num) (by norm_num),
    cppInt_eq_of_neg (n := -8) (by norm_num) (by norm_num) (by norm_num)]
  norm_num

theorem scene_at_A :
    (scene_intersect spheres0 ⟨0, 0, -15⟩ ⟨0, -1, 0⟩).1 = true ∧
    (scene_intersect spheres0 ⟨0, 0, -15⟩ ⟨0, -1, 0⟩).2.1 = ⟨0, -4, -15⟩ ∧
    (scene_intersect spheres0 ⟨0, 0, -15⟩ ⟨0, -1, 0⟩).2.2.2.diffuse_color =
      ⟨0.3, 0.3, 0.3⟩ := by
  have hm1 : ray_sphere_intersect ⟨0, 0, -15⟩ ⟨0, -1, 0⟩
      ⟨⟨-3, 0, -16⟩, 2, ivory⟩ = (false, 0) := by
    unfold ray_sphere_intersect
    norm_num [Vec3.dot]
  have hm2 : ray_sphere_intersect ⟨0, 0, -15⟩ ⟨0, -1, 0⟩
      ⟨⟨-1, -1.5, -12⟩, 2, glass⟩ = (false, 0) := by
    unfold ray_sphere_intersect
    norm_num [Vec3.dot]
  have hm3 : ray_sphere_intersect ⟨0, 0, -15⟩ ⟨0, -1, 0⟩
      ⟨⟨1.5, -0.5, -18⟩, 3, red_rubber⟩ = (false, 0) := by
    unfold ray_sphere_intersect
    norm_num [Vec3.dot]
  have hm4 : ray_sphere_intersect ⟨0, 0, -15⟩ ⟨0, -1, 0⟩
      ⟨⟨7, 5, -18⟩, 4, mirror⟩ = (false, 0) := by
    unfold ray_sphere_intersect
    norm_num [Vec3.dot]
  have habs : |(-1 : ℝ)| = 1 := by
    rw [abs_neg, abs_one]
  have hplane : planeStep ⟨0, 0, -15⟩ ⟨0, -1, 0⟩ initHitState =
      ⟨4, ⟨0, -4, -15⟩, ⟨0, 1, 0⟩,
        { diffuse_color := ⟨0.3, 0.3, 0.3⟩ }⟩ := by
    unfold planeStep initHitState
    rw [if_pos (by rw [habs]; norm_num)]
    rw [if_pos (by norm_num)]
    have hp : (⟨0, 0, -15⟩ : Vec3) +
        Vec3.smul ⟨0, -1, 0⟩ (-(((⟨0, 0, -15⟩ : Vec3).y + 4)) / (⟨0, -1, 0⟩ : Vec3).y) =
        ⟨0, -4, -15⟩ := by
      norm_num [Vec3.smul]
    rw [hp, checker_at_A]
    norm_num
  unfold scene_intersect
  rw [hplane]
  simp only [spheres0, List.foldl_cons, List.foldl_nil,
    sphereStep_skip_of_miss (by rw [hm1]),
    sphereStep_skip_of_miss (by rw [hm2]),
    sphereStep_skip_of_miss (by rw [hm3]),
    sphereStep_skip_of_miss (by rw [hm4])]
  norm_num

theorem scene_at_B :
    (scene_intersect spheres0 ⟨0.6, 0, -15⟩ ⟨0, -1, 0⟩).1 = true ∧
    (scene_intersect spheres0 ⟨0.6, 0, -15⟩ ⟨0, -1, 0⟩).2.1 = ⟨0.6, -4, -15⟩ ∧
    (scene_intersect spheres0 ⟨0.6, 0, -15⟩ ⟨0, -1, 0⟩).2.2.2.diffuse_color =
      ⟨0.3, 0.3, 0.3⟩ := by
  have hm1 : ray_sphere_intersect ⟨0.6, 0, -15⟩ ⟨0, -1, 0⟩
      ⟨⟨-3, 0, -16⟩, 2, ivory⟩ = (false, 0) := by
    unfold ray_sphere_intersect
    norm_num [Vec3.dot]
  have hm2 : ray_sphere_intersect ⟨0.6, 0, -15⟩ ⟨0, -1, 0⟩
      ⟨⟨-1, -1.5, -12⟩, 2, glass⟩ = (false, 0) := by
    unfold ray_sphere_intersect
    norm_num [Vec3.dot]
  have hm3 : ray_sphere_intersect ⟨0.6, 0, -15⟩ ⟨0, -1, 0⟩
      ⟨⟨1.5, -0.5, -18⟩, 3, red_rubber⟩ = (false, 0) := by
    unfold ray_sphere_intersect
    norm_num [Vec3.dot]
  have hm4 : ray_sphere_intersect ⟨0.6, 0, -15⟩ ⟨0, -1, 0⟩
      ⟨⟨7, 5, -18⟩, 4, mirror⟩ = (false, 0) := by
    unfold ray_sphere_intersect
    norm_num [Vec3.dot]
  have habs : |(-1 : ℝ)| = 1 := by
    rw [abs_neg, abs_one]
  have hplane : planeStep ⟨0.6, 0, -15⟩ ⟨0, -1, 0⟩ initHitState =
      ⟨4, ⟨0.6, -4, -15⟩, ⟨0, 1, 0⟩,
        { diffuse_color := ⟨0.3, 0.3, 0.3⟩ }⟩ := by
    unfold planeStep initHitState
    rw [if_pos (by rw [habs]; norm_num)]
    rw [if_pos (by norm_num [abs_le, abs_lt])]
    have hp : (⟨0.6, 0, -15⟩ : Vec3) +
        Vec3.smul ⟨0, -1, 0⟩
          (-(((⟨0.6, 0, -15⟩ : Vec3).y + 4)) / (⟨0, -1, 0⟩ : Vec3).y) =
        ⟨0.6, -4, -15⟩ := by
      norm_num [Vec3.smul]
    rw [hp, checker_at_B]
    norm_num
  unfold scene_intersect
  rw [hplane]
  simp only [spheres0, List.foldl_cons, List.foldl_nil,
    sphereStep_skip_of_miss (by rw [hm1]),
    sphereStep_skip_of_miss (by rw [hm2]),
    sphereStep_skip_of_miss (by rw [hm3]),
    sphereStep_skip_of_miss (by rw [hm4])]
  norm_num

theorem scene_at_C :
    (scene_intersect spheres0 ⟨-8, 0, -16⟩ ⟨0, -1, 0⟩).1 = true ∧
    (scene_intersect spheres0 ⟨-8, 0, -16⟩ ⟨0, -1, 0⟩).2.1 = ⟨-8, -4, -16⟩ ∧
    (scene_intersect spheres0 ⟨-8, 0, -16⟩ ⟨0, -1, 0⟩).2.2.2.diffuse_color =
      ⟨0.3, 0.2, 0.1⟩ := by
  have hm1 : ray_sphere_intersect ⟨-8, 0, -16⟩ ⟨0, -1, 0⟩
      ⟨⟨-3, 0, -16⟩, 2, ivory⟩ = (false, 0) := by
    unfold ray_sphere_intersect
    norm_num [Vec3.dot]
  have hm2 : ray_sphere_intersect ⟨-8, 0, -16⟩ ⟨0, -1, 0⟩
      ⟨⟨-1, -1.5, -12⟩, 2, glass⟩ = (false, 0) := by
    unfold ray_sphere_intersect
    norm_num [Vec3.dot]
  have hm3 : ray_sphere_intersect ⟨-8, 0, -16⟩ ⟨0, -1, 0⟩
      ⟨⟨1.5, -0.5, -18⟩, 3, red_rubber⟩ = (false, 0) := by
    unfold ray_sphere_intersect
    norm_num [Vec3.dot]
  have hm4 : ray_sphere_intersect ⟨-8, 0, -16⟩ ⟨0, -1, 0⟩
      ⟨⟨7, 5, -18⟩, 4, mirror⟩ = (false, 0) := by
    unfold ray_sphere_intersect
    norm_num [Vec3.dot]
  have habs : |(-1 : ℝ)| = 1 := by
    rw [abs_neg, abs_one]
  have habs8 : |(-8 : ℝ)| = 8 := by
    rw [abs_neg]
    exact abs_of_nonneg (by norm_num)
  have hplane : planeStep ⟨-8, 0, -16⟩ ⟨0, -1, 0⟩ initHitState =
      ⟨4, ⟨-8, -4, -16⟩, ⟨0, 1, 0⟩,
        { diffuse_color := ⟨0.3, 0.2, 0.1⟩ }⟩ := by
    unfold planeStep initHitState
    rw [if_pos (by rw [habs]; norm_num)]
    rw [if_pos (by norm_num [habs8])]
    have hp : (⟨-8, 0, -16⟩ : Vec3) +
        Vec3.smul ⟨0, -1, 0⟩
          (-(((⟨-8, 0, -16⟩ : Vec3).y + 4)) / (⟨0, -1, 0⟩ : Vec3).y) =
        ⟨-8, -4, -16⟩ := by
      norm_num [Vec3.smul]
    rw [hp, checker_at_C]
    norm_num
  unfold scene_intersect
  rw [hplane]
  simp only [spheres0, List.foldl_cons, List.foldl_nil,
    sphereStep_skip_of_miss (by rw [hm1]),
    sphereStep_skip_of_miss (by rw [hm2]),
    sphereStep_skip_of_miss (by rw [hm3]),
    sphereStep_skip_of_miss (by rw [hm4])]
  norm_num

/-- C4 counterexample: the two accepted checkerboard hit points
`(0, -15)` and `(0.6, -15)` named by the claim receive the SAME shade
`(0.3, 0.3, 0.3)` from `scene_intersect` (they do not fall into
different classes), and the points `(0, -15)` and `(-8, -16)`, whose
`floor(0.5*x) + floor(0.5*z)` sums have equal parity, receive DIFFERENT
shades — so the chosen shade is not a function of that floor-sum
parity (the code truncates `0.5*z` toward zero instead of flooring). -/
theorem checker_parity_counterexample :
    (scene_intersect spheres0 ⟨0, 0, -15⟩ ⟨0, -1, 0⟩).2.1 = ⟨0, -4, -15⟩ ∧
    (scene_intersect spheres0 ⟨0, 0, -15⟩ ⟨0, -1, 0⟩).2.2.2.diffuse_color =
      ⟨0.3, 0.3, 0.3⟩ ∧
    (scene_intersect spheres0 ⟨0.6, 0, -15⟩ ⟨0, -1, 0⟩).2.1 = ⟨0.6, -4, -15⟩ ∧
    (scene_intersect spheres0 ⟨0.6, 0, -15⟩ ⟨0, -1, 0⟩).2.2.2.diffuse_color =
      ⟨0.3, 0.3, 0.3⟩ ∧
    (scene_intersect spheres0 ⟨-8, 0, -16⟩ ⟨0, -1, 0⟩).2.1 = ⟨-8, -4, -16⟩ ∧
    (scene_intersect spheres0 ⟨-8, 0, -16⟩ ⟨0, -1, 0⟩).2.2.2.diffuse_color =
      ⟨0.3, 0.2, 0.1⟩ ∧
    (⌊(0.5 : ℝ) * 0⌋ + ⌊(0.5 : ℝ) * (-15)⌋) % 2 =
      (⌊(0.5 : ℝ) * (-8)⌋ + ⌊(0.5 : ℝ) * (-16)⌋) % 2 ∧
    (⟨0.3, 0.3, 0.3⟩ : Vec3) ≠ ⟨0.3, 0.2, 0.1⟩ := by
  refine ⟨scene_at_A.2.1, scene_at_A.2.2, scene_at_B.2.1, scene_at_B.2.2,
    scene_at_C.2.1, scene_at_C.2.2, ?_, ?_⟩
  · have f1 : ⌊(0.5 : ℝ) * 0⌋ = 0 := by norm_num
    have f2 : ⌊(0.5 : ℝ) * (-15)⌋ = -8 := by
      rw [show (0.5 : ℝ) * (-15) = -7.5 by norm_num, Int.floor_eq_iff]
      norm_num
    have f3 : ⌊(0.5 : ℝ) * (-8)⌋ = -4 := by
      rw [show (0.5 : ℝ) * (-8) = -4 by norm_num]
      rw [show (-4 : ℝ) = ((-4 : ℤ) : ℝ) by norm_num, Int.floor_intCast]
    have f4 : ⌊(0.5 : ℝ) * (-16)⌋ = -8 := by
      rw [show (0.5 : ℝ) * (-16) = -8 by norm_num]
      rw [show (-8 : ℝ) = ((-8 : ℤ) : ℝ) by norm_num, Int.floor_intCast]
    rw [f1, f2, f3, f4]
    omega
  · intro h
    have := congrArg Vec3.y h
    norm_num at this

/-- C4 (amended): the checkerboard shade is the parity of
`int(0.5*x + 1000) + int(0.5*z)` with C++ `int` truncation toward zero
(so for negative non-integral `0.5*z` it is the ceiling, not the
floor); the cells are 2 scene units wide, and cells adjacent by 2 units
along x or along z (within the visible region) receive different
shades; the concrete points `(x=0, z=-15)` and `(x=0.6, z=-15)` lie in
the same cell and receive the same shade. -/
theorem checker_cells_alternate (x y y' z : ℝ) (hx : -2000 ≤ x) (hz : z ≤ -2) :
    checkerColor ⟨x + 2, y, z⟩ ≠ checkerColor ⟨x, y', z⟩ ∧
    checkerColor ⟨x, y, z + 2⟩ ≠ checkerColor ⟨x, y', z⟩ ∧
    checkerColor ⟨0, -4, -15⟩ = checkerColor ⟨0.6, -4, -15⟩ := by
  refine ⟨?_, ?_, by rw [checker_at_A, checker_at_B]⟩
  · apply checkerColor_flip
    have h1 : cppInt (0.5 * (x + 2) + 1000) = cppInt (0.5 * x + 1000) + 1 := by
      rw [show 0.5 * (x + 2) + 1000 = 0.5 * x + 1000 + 1 by ring]
      exact cppInt_add_one_of_nonneg (by linarith)
    show cppInt (0.5 * (x + 2) + 1000) + cppInt (0.5 * z) =
      cppInt (0.5 * x + 1000) + cppInt (0.5 * z) + 1
    omega
  · apply checkerColor_flip
    have h2 : cppInt (0.5 * (z + 2)) = cppInt (0.5 * z) + 1 := by
      rw [show 0.5 * (z + 2) = 0.5 * z + 1 by ring]
      exact cppInt_add_one_of_nonpos (by linarith)
    show cppInt (0.5 * x + 1000) + cppInt (0.5 * (z + 2)) =
      cppInt (0.5 * x + 1000) + cppInt (0.5 * z) + 1
    omega

/-- C4 witness: the amended alternation applied at `x = 0`, `z = -15`. -/
theorem checker_cells_alternate_witness :
    checkerColor ⟨(0 : ℝ) + 2, -4, -15⟩ ≠ checkerColor ⟨0, -4, -15⟩ ∧
    checkerColor ⟨(0 : ℝ), -4, (-15) + 2⟩ ≠ checkerColor ⟨0, -4, -15⟩ ∧
    checkerColor ⟨0, -4, -15⟩ = checkerColor ⟨0.6, -4, -15⟩ :=
  checker_cells_alternate 0 (-4) (-4) (-15) (by norm_num) (by norm_num)

/-- One iteration of the per-light shadow/shading loop in `cast_ray`:
the light is skipped (hard shadow) when the shadow ray from the hit
point toward the light hits a surface strictly closer than the light;
otherwise it accumulates the diffuse and specular intensities. -/
noncomputable def lightStep (spheres : List Sphere) (point N dir : Vec3)
    (material : Material) (acc : ℝ × ℝ) (light : Vec3) : ℝ × ℝ :=
  if (scene_intersect spheres point ((light - point).normalized)).1 = true ∧
      ((scene_intersect spheres point ((light - point).normalized)).2.1 -
        point).norm < (light - point).norm then acc
  else
    (acc.1 + max 0 (Vec3.dot ((light - point).normalized) N),
     acc.2 + Real.rpow
       (max 0 (-(Vec3.dot (reflect (-((light - point).normalized)) N) dir)))
       material.specular_exponent)

/-- The final color combination of `cast_ray`:
`diffuse_color * dli * albedo[0] + white * sli * albedo[1] +
reflect_color * albedo[2] + refract_color * albedo[3]`. -/
noncomputable def finalColor (m : Material) (dli sli : ℝ) (rc fc : Vec3) : Vec3 :=
  (m.diffuse_color.smul dli).smul (m.albedo 0) +
    ((⟨1, 1, 1⟩ : Vec3).smul sli).smul (m.albedo 1) +
    rc.smul (m.albedo 2) + fc.smul (m.albedo 3)

/-- Embeds `vec3 cast_ray(const vec3& orig, const vec3& dir, const int depth)`:
background when `depth > 4` or nothing is hit; otherwise recurse along
the reflected and refracted directions at `depth + 1` and combine with
the shadowed direct lighting. -/
noncomputable def cast_ray (spheres : List Sphere) (orig dir : Vec3)
    (depth : ℕ) : Vec3 :=
  if h : 4 < depth ∨ (scene_intersect spheres orig dir).1 = false then
    ⟨0.2, 0.7, 0.8⟩
  else
    finalColor (scene_intersect spheres orig dir).2.2.2
      (lights0.foldl
        (lightStep spheres (scene_intersect spheres orig dir).2.1
          (scene_intersect spheres orig dir).2.2.1 dir
          (scene_intersect spheres orig dir).2.2.2) (0, 0)).1
      (lights0.foldl
        (lightStep spheres (scene_intersect spheres orig dir).2.1
          (scene_intersect spheres orig dir).2.2.1 dir
          (scene_intersect spheres orig dir).2.2.2) (0, 0)).2
      (cast_ray spheres (scene_intersect spheres orig dir).2.1
        ((reflect dir (scene_intersect spheres orig dir).2.2.1).normalized)
        (depth + 1))
      (cast_ray spheres (scene_intersect spheres orig dir).2.1
        ((refract dir (scene_intersect spheres orig dir).2.2.1
          (scene_intersect spheres orig dir).2.2.2.refractive_index
          1).normalized)
        (depth + 1))
termination_by 5 - depth
decreasing_by
  all_goals
    push_neg at h
    omega

/-- Fuel-indexed variant of `cast_ray`: the fuel strictly decreases at
every recursive bounce, so a run with fuel `f` makes at most `f` nested
evaluations. -/
noncomputable def castRayFuel (spheres : List Sphere) :
    ℕ → Vec3 → Vec3 → ℕ → Vec3
  | 0, _, _, _ => ⟨0.2, 0.7, 0.8⟩
  | fuel + 1, orig, dir, depth =>
    if 4 < depth ∨ (scene_intersect spheres orig dir).1 = false then
      ⟨0.2, 0.7, 0.8⟩
    else
      finalColor (scene_intersect spheres orig dir).2.2.2
        (lights0.foldl
          (lightStep spheres (scene_intersect spheres orig dir).2.1
            (scene_intersect spheres orig dir).2.2.1 dir
            (scene_intersect spheres orig dir).2.2.2) (0, 0)).1
        (lights0.foldl
          (lightStep spheres (scene_intersect spheres orig dir).2.1
            (scene_intersect spheres orig dir).2.2.1 dir
            (scene_intersect spheres orig dir).2.2.2) (0, 0)).2
        (castRayFuel spheres fuel (scene_intersect spheres orig dir).2.1
          ((reflect dir (scene_intersect spheres orig dir).2.2.1).normalized)
          (depth + 1))
        (castRayFuel spheres fuel (scene_intersect spheres orig dir).2.1
          ((refract dir (scene_intersect spheres orig dir).2.2.1
            (scene_intersect spheres orig dir).2.2.2.refractive_index
            1).normalized)
          (depth + 1))

/-- With enough fuel to cover the remaining depth budget (`depth + fuel
≥ 6`), the fuel-indexed evaluator agrees with `cast_ray`. -/
theorem castRayFuel_eq (spheres : List Sphere) (fuel : ℕ) :
    ∀ (orig dir : Vec3) (depth : ℕ), 6 ≤ depth + fuel →
      castRayFuel spheres fuel orig dir depth = cast_ray spheres orig dir depth := by
  induction fuel with
  | zero =>
    intro orig dir depth h
    have hd : 4 < depth := by omega
    rw [castRayFuel, cast_ray, dif_pos (Or.inl hd)]
  | succ fuel ih =>
    intro orig dir depth h
    rw [castRayFuel, cast_ray]
    by_cases hterm : 4 < depth ∨ (scene_intersect spheres orig dir).1 = false
    · rw [if_pos hterm, dif_pos hterm]
    · rw [if_neg hterm, dif_neg hterm,
        ih _ _ (depth + 1) (by omega), ih _ _ (depth + 1) (by omega)]

/-- C1: `cast_ray` returns exactly the background color `(0.2, 0.7, 0.8)`
whenever the depth bound is exceeded (`depth > 4`) or `scene_intersect`
reports no hit (in particular for every ray missing all spheres and the
bounded checkerboard region). -/
theorem cast_ray_background (spheres : List Sphere) (orig dir : Vec3) (depth : ℕ)
    (h : 4 < depth ∨ (scene_intersect spheres orig dir).1 = false) :
    cast_ray spheres orig dir depth = ⟨0.2, 0.7, 0.8⟩ := by
  rw [cast_ray, dif_pos h]

/-- The ray from the origin straight up misses the plane region and all
four initial spheres. -/
theorem scene_up_miss :
    (scene_intersect spheres0 ⟨0, 0, 0⟩ ⟨0, 1, 0⟩).1 = false := by
  have hm1 : ray_sphere_intersect ⟨0, 0, 0⟩ ⟨0, 1, 0⟩
      ⟨⟨-3, 0, -16⟩, 2, ivory⟩ = (false, 0) := by
    unfold ray_sphere_intersect
    norm_num [Vec3.dot]
  have hm2 : ray_sphere_intersect ⟨0, 0, 0⟩ ⟨0, 1, 0⟩
      ⟨⟨-1, -1.5, -12⟩, 2, glass⟩ = (false, 0) := by
    unfold ray_sphere_intersect
    norm_num [Vec3.dot]
  have hm3 : ray_sphere_intersect ⟨0, 0, 0⟩ ⟨0, 1, 0⟩
      ⟨⟨1.5, -0.5, -18⟩, 3, red_rubber⟩ = (false, 0) := by
    unfold ray_sphere_intersect
    norm_num [Vec3.dot]
  have hm4 : ray_sphere_intersect ⟨0, 0, 0⟩ ⟨0, 1, 0⟩
      ⟨⟨7, 5, -18⟩, 4, mirror⟩ = (false, 0) := by
    unfold ray_sphere_intersect
    norm_num [Vec3.dot]
  have hplane : planeStep ⟨0, 0, 0⟩ ⟨0, 1, 0⟩ initHitState = initHitState := by
    unfold planeStep initHitState
    rw [if_pos (by rw [abs_one]; norm_num)]
    rw [if_neg (by norm_num)]
  unfold scene_intersect
  rw [hplane]
  simp only [spheres0, List.foldl_cons, List.foldl_nil,
    sphereStep_skip_of_miss (by rw [hm1]),
    sphereStep_skip_of_miss (by rw [hm2]),
    sphereStep_skip_of_miss (by rw [hm3]),
    sphereStep_skip_of_miss (by rw [hm4])]
  norm_num [initHitState]

/-- C1 witness: the upward ray from the camera origin at depth 0. -/
theorem cast_ray_background_witness :
    cast_ray spheres0 ⟨0, 0, 0⟩ ⟨0, 1, 0⟩ 0 = ⟨0.2, 0.7, 0.8⟩ :=
  cast_ray_background spheres0 ⟨0, 0, 0⟩ ⟨0, 1, 0⟩ 0 (Or.inr scene_up_miss)

/-- C7: the recursion of `cast_ray` is depth-bounded: a primary ray
(depth 0) is fully evaluated by the fuel-indexed evaluator with 6 fuel
(depth values 0 through 5, each bounce incrementing depth by exactly 1),
and any call with depth exceeding 4 immediately returns the background
color without recursing, regardless of the scene contents. -/
theorem cast_ray_depth_bounded (spheres : List Sphere) :
    (∀ orig dir : Vec3,
      cast_ray spheres orig dir 0 = castRayFuel spheres 6 orig dir 0) ∧
    (∀ (orig dir : Vec3) (depth : ℕ), 4 < depth →
      cast_ray spheres orig dir depth = ⟨0.2, 0.7, 0.8⟩) := by
  constructor
  · intro orig dir
    exact (castRayFuel_eq spheres 6 orig dir 0 (by omega)).symm
  · intro orig dir depth h
    rw [cast_ray, dif_pos (Or.inl h)]

/-- C7 witness: concrete primary ray and a depth-5 call. -/
theorem cast_ray_depth_bounded_witness :
    cast_ray spheres0 ⟨0, 0, 0⟩ ⟨0, 0, -1⟩ 5 = ⟨0.2, 0.7, 0.8⟩ ∧
    cast_ray spheres0 ⟨0, 0, 0⟩ ⟨0, 0, -1⟩ 0 =
      castRayFuel spheres0 6 ⟨0, 0, 0⟩ ⟨0, 0, -1⟩ 0 :=
  ⟨(cast_ray_depth_bounded spheres0).2 ⟨0, 0, 0⟩ ⟨0, 0, -1⟩ 5 (by norm_num),
   (cast_ray_depth_bounded spheres0).1 ⟨0, 0, 0⟩ ⟨0, 0, -1⟩⟩

/-- C6: in the per-light loop of `cast_ray`, a light contributes nothing
exactly when the shadow ray cast with the same `scene_intersect` routine
from the hit point toward the light hits a surface strictly closer than
the light; otherwise it adds `max(0, light_dir . N)` to the diffuse
intensity and `max(0, -reflect(-light_dir, N) . dir)` raised to the
material's specular exponent to the specular intensity. -/
theorem light_occlusion_rule (spheres : List Sphere) (point N dir : Vec3)
    (m : Material) (acc : ℝ × ℝ) (light : Vec3) :
    (((scene_intersect spheres point ((light - point).normalized)).1 = true ∧
        ((scene_intersect spheres point ((light - point).normalized)).2.1 -
          point).norm < (light - point).norm) →
      lightStep spheres point N dir m acc light = acc) ∧
    (¬ ((scene_intersect spheres point ((light - point).normalized)).1 = true ∧
        ((scene_intersect spheres point ((light - point).normalized)).2.1 -
          point).norm < (light - point).norm) →
      lightStep spheres point N dir m acc light =
        (acc.1 + max 0 (Vec3.dot ((light - point).normalized) N),
         acc.2 + Real.rpow
           (max 0 (-(Vec3.dot (reflect (-((light - point).normalized)) N) dir)))
           m.specular_exponent)) := by
  constructor <;> intro h <;> unfold lightStep
  · rw [if_pos h]
  · rw [if_neg h]

/-- The shadow ray used in the C6 witness is unobstructed in the empty
scene. -/
theorem scene_empty_unobstructed :
    (scene_intersect [] ⟨0, 0, 0⟩
      (((⟨0, 0, 1⟩ : Vec3) - ⟨0, 0, 0⟩).normalized)).1 = false := by
  unfold scene_intersect planeStep initHitState
  norm_num [Vec3.normalized, Vec3.smul]

/-- C6 witness: an unoccluded light adds the two intensity terms. -/
theorem light_occlusion_rule_witness :
    lightStep [] ⟨0, 0, 0⟩ ⟨0, 1, 0⟩ ⟨0, 0, -1⟩ {} (0, 0) ⟨0, 0, 1⟩ =
      ((0 : ℝ) +
        max 0 (Vec3.dot (((⟨0, 0, 1⟩ : Vec3) - ⟨0, 0, 0⟩).normalized) ⟨0, 1, 0⟩),
       (0 : ℝ) + Real.rpow
         (max 0 (-(Vec3.dot
           (reflect (-(((⟨0, 0, 1⟩ : Vec3) - ⟨0, 0, 0⟩).normalized)) ⟨0, 1, 0⟩)
           ⟨0, 0, -1⟩)))
         ({} : Material).specular_exponent) :=
  (light_occlusion_rule [] ⟨0, 0, 0⟩ ⟨0, 1, 0⟩ ⟨0, 0, -1⟩ {} (0, 0) ⟨0, 0, 1⟩).2
    (by
      intro hc
      rw [scene_empty_unobstructed] at hc
      exact absurd hc.1 (by norm_num))

/-- The plane branch only ever modifies `diffuse_color` of the
default-constructed material. -/
theorem planeStep_material_fields (orig dir : Vec3) :
    (planeStep orig dir initHitState).material.refractive_index = 1 ∧
    (planeStep orig dir initHitState).material.specular_exponent = 0 ∧
    (planeStep orig dir initHitState).material.albedo = ![2, 0, 0, 0] := by
  unfold planeStep initHitState
  dsimp only
  split_ifs <;> exact ⟨rfl, rfl, rfl⟩

/-- Any material returned by `scene_intersect` is either one of the
spheres' materials or retains the default-constructed fields
(refractive index 1, specular exponent 0, albedo `{2,0,0,0}`). -/
theorem scene_material_source (spheres : List Sphere) (orig dir : Vec3) :
    ((scene_intersect spheres orig dir).2.2.2.refractive_index = 1 ∧
     (scene_intersect spheres orig dir).2.2.2.specular_exponent = 0 ∧
     (scene_intersect spheres orig dir).2.2.2.albedo = ![2, 0, 0, 0]) ∨
    ∃ s ∈ spheres, (scene_intersect spheres orig dir).2.2.2 = s.material := by
  have hstep : ∀ (st : HitState) (s : Sphere), s ∈ spheres →
      ((st.material.refractive_index = 1 ∧ st.material.specular_exponent = 0 ∧
        st.material.albedo = ![2, 0, 0, 0]) ∨
       ∃ s' ∈ spheres, st.material = s'.material) →
      (((sphereStep orig dir st s).material.refractive_index = 1 ∧
        (sphereStep orig dir st s).material.specular_exponent = 0 ∧
        (sphereStep orig dir st s).material.albedo = ![2, 0, 0, 0]) ∨
       ∃ s' ∈ spheres, (sphereStep orig dir st s).material = s'.material) := by
    intro st s hs hP
    unfold sphereStep
    dsimp only
    split_ifs with hc
    · exact hP
    · exact Or.inr ⟨s, hs, rfl⟩
  exact foldl_invariant (sphereStep orig dir)
    (fun st => (st.material.refractive_index = 1 ∧
      st.material.specular_exponent = 0 ∧
      st.material.albedo = ![2, 0, 0, 0]) ∨
      ∃ s ∈ spheres, st.material = s.material)
    spheres (planeStep orig dir initHitState)
    (Or.inl (planeStep_material_fields orig dir)) hstep

/-- With the default albedo `{2, 0, 0, 0}`, the final color combination
degenerates to the diffuse term weighted by 2 (specular, reflection and
refraction weighted by 0). -/
theorem finalColor_default_albedo (m : Material) (dli sli : ℝ) (rc fc : Vec3)
    (h : m.albedo = ![2, 0, 0, 0]) :
    finalColor m dli sli rc fc = (m.diffuse_color.smul dli).smul 2 := by
  have h0 : m.albedo 0 = 2 := by rw [h]; rfl
  have h1 : m.albedo 1 = 0 := by rw [h]; rfl
  have h2 : m.albedo 2 = 0 := by rw [h]; rfl
  have h3 : m.albedo 3 = 0 := by rw [h]; rfl
  unfold finalColor
  rw [h0, h1, h2, h3]
  ext <;> simp [Vec3.smul]

/-- C10: a checkerboard plane hit carries a default-constructed material
whose only modified field is `diffuse_color` (refractive index 1,
specular exponent 0, albedo `{2,0,0,0}`); every material reported by
`scene_intersect` is either such a default-based material or one of the
spheres' materials; and under the default albedo the final color of
`cast_ray` weights the diffuse contribution by 2 and the specular,
reflection and refraction contributions by 0. -/
theorem checkerboard_material_weights :
    (∀ orig dir : Vec3,
      (planeStep orig dir initHitState).material.refractive_index = 1 ∧
      (planeStep orig dir initHitState).material.specular_exponent = 0 ∧
      (planeStep orig dir initHitState).material.albedo = ![2, 0, 0, 0]) ∧
    (∀ (spheres : List Sphere) (orig dir : Vec3),
      ((scene_intersect spheres orig dir).2.2.2.refractive_index = 1 ∧
       (scene_intersect spheres orig dir).2.2.2.specular_exponent = 0 ∧
       (scene_intersect spheres orig dir).2.2.2.albedo = ![2, 0, 0, 0]) ∨
      ∃ s ∈ spheres, (scene_intersect spheres orig dir).2.2.2 = s.material) ∧
    (∀ (m : Material) (dli sli : ℝ) (rc fc : Vec3), m.albedo = ![2, 0, 0, 0] →
      finalColor m dli sli rc fc = (m.diffuse_color.smul dli).smul 2) :=
  ⟨planeStep_material_fields, scene_material_source, finalColor_default_albedo⟩

/-- C10 witness: concrete checkerboard material and light intensities. -/
theorem checkerboard_material_weights_witness :
    finalColor { diffuse_color := ⟨0.3, 0.3, 0.3⟩ } 1 1 ⟨0, 0, 0⟩ ⟨0, 0, 0⟩ =
      (((⟨0.3, 0.3, 0.3⟩ : Vec3).smul 1).smul 2) ∧
    (planeStep ⟨0, 0, -15⟩ ⟨0, -1, 0⟩ initHitState).material.refractive_index = 1 :=
  ⟨checkerboard_material_weights.2.2 { diffuse_color := ⟨0.3, 0.3, 0.3⟩ }
      1 1 ⟨0, 0, 0⟩ ⟨0, 0, 0⟩ rfl,
   (checkerboard_material_weights.1 ⟨0, 0, -15⟩ ⟨0, -1, 0⟩).1⟩

theorem dot_smul_self (v : Vec3) (a : ℝ) :
    Vec3.dot (v.smul a) (v.smul a) = a * a * Vec3.dot v v := by
  simp only [Vec3.dot, Vec3.smul]
  ring

/-- A vector lying on a sphere of positive radius normalizes to unit
length. -/
theorem normalized_unit {v : Vec3} {r : ℝ} (hr : 0 < r)
    (h : Vec3.dot v v = r * r) : v.normalized.norm = 1 := by
  have hvn : v.norm = r := by
    rw [Vec3.norm, h, Real.sqrt_mul_self hr.le]
  have hd : Vec3.dot v.normalized v.normalized = 1 := by
    rw [Vec3.normalized, dot_smul_self, hvn, h]
    field_simp
  rw [Vec3.norm, hd, Real.sqrt_one]

/-- C8: whenever `scene_intersect` reports a hit (for a unit direction
and positive sphere radii), the returned normal is unit length, and it
is either the plane's fixed upward vector `(0,1,0)` or the
normalization of `hit_point - center` for one of the spheres (hence
parallel to `hit_point - center`). -/
theorem scene_intersect_normal_unit (spheres : List Sphere) (orig dir : Vec3)
    (hdir : Vec3.dot dir dir = 1)
    (hrad : ∀ s ∈ spheres, 0 < s.radius)
    (hhit : (scene_intersect spheres orig dir).1 = true) :
    (scene_intersect spheres orig dir).2.2.1.norm = 1 ∧
    ((scene_intersect spheres orig dir).2.2.1 = ⟨0, 1, 0⟩ ∨
      ∃ s ∈ spheres, (scene_intersect spheres orig dir).2.2.1 =
        ((scene_intersect spheres orig dir).2.1 - s.center).normalized) := by
  have hup : Vec3.norm ⟨0, 1, 0⟩ = 1 := by
    rw [Vec3.norm]
    norm_num [Vec3.dot, Real.sqrt_one]
  have hinit : (planeStep orig dir initHitState).nearest_dist = 1e10 ∨
      ((planeStep orig dir initHitState).n.norm = 1 ∧
       ((planeStep orig dir initHitState).n = ⟨0, 1, 0⟩ ∨
        ∃ s ∈ spheres, (planeStep orig dir initHitState).n =
          ((planeStep orig dir initHitState).pt - s.center).normalized)) := by
    unfold planeStep initHitState
    dsimp only
    split_ifs
    · exact Or.inr ⟨hup, Or.inl rfl⟩
    · exact Or.inl rfl
    · exact Or.inl rfl
  have hstep : ∀ (st : HitState) (s : Sphere), s ∈ spheres →
      (st.nearest_dist = 1e10 ∨
        (st.n.norm = 1 ∧ (st.n = ⟨0, 1, 0⟩ ∨
          ∃ s' ∈ spheres, st.n = (st.pt - s'.center).normalized))) →
      ((sphereStep orig dir st s).nearest_dist = 1e10 ∨
        ((sphereStep orig dir st s).n.norm = 1 ∧
         ((sphereStep orig dir st s).n = ⟨0, 1, 0⟩ ∨
          ∃ s' ∈ spheres, (sphereStep orig dir st s).n =
            ((sphereStep orig dir st s).pt - s'.center).normalized))) := by
    intro st s hs hP
    unfold sphereStep
    dsimp only
    split_ifs with hc
    · exact hP
    · obtain ⟨hc1, hc2⟩ := not_or.mp hc
      have h1 : (ray_sphere_intersect orig dir s).1 = true := by
        simpa using hc1
      have heq : ray_sphere_intersect orig dir s =
          (true, (ray_sphere_intersect orig dir s).2) := by
        rw [← h1]
      obtain ⟨-, hon⟩ :=
        ray_sphere_hit_on_sphere orig dir s
          (ray_sphere_intersect orig dir s).2 hdir heq
      exact Or.inr ⟨normalized_unit (hrad s hs) hon, Or.inr ⟨s, hs, rfl⟩⟩
  have hP := foldl_invariant (sphereStep orig dir)
    (fun st => st.nearest_dist = 1e10 ∨
      (st.n.norm = 1 ∧ (st.n = ⟨0, 1, 0⟩ ∨
        ∃ s ∈ spheres, st.n = (st.pt - s.center).normalized)))
    spheres (planeStep orig dir initHitState) hinit hstep
  have hlt : (spheres.foldl (sphereStep orig dir)
      (planeStep orig dir initHitState)).nearest_dist < 1000 :=
    of_decide_eq_true hhit
  rcases hP with h1e10 | ⟨hnorm, hsrc⟩
  · rw [h1e10] at hlt
    norm_num at hlt
  · exact ⟨hnorm, hsrc⟩

/-- C8 witness: a single unit sphere hit head-on from the origin. -/
theorem scene_intersect_normal_unit_witness :
    (scene_intersect [tieA] ⟨0, 0, 0⟩ ⟨0, 0, -1⟩).2.2.1.norm = 1 ∧
    ((scene_intersect [tieA] ⟨0, 0, 0⟩ ⟨0, 0, -1⟩).2.2.1 = ⟨0, 1, 0⟩ ∨
      ∃ s ∈ [tieA], (scene_intersect [tieA] ⟨0, 0, 0⟩ ⟨0, 0, -1⟩).2.2.1 =
        ((scene_intersect [tieA] ⟨0, 0, 0⟩ ⟨0, 0, -1⟩).2.1 -
          s.center).normalized) :=
  scene_intersect_normal_unit [tieA] ⟨0, 0, 0⟩ ⟨0, 0, -1⟩
    (by norm_num [Vec3.dot])
    (by
      intro s hs
      rw [List.mem_singleton] at hs
      rw [hs]
      norm_num [tieA])
    (by
      unfold scene_intersect
      rw [List.foldl_cons, List.foldl_nil,
        show planeStep ⟨0, 0, 0⟩ ⟨0, 0, -1⟩ initHitState = initHitState by
          unfold planeStep
          norm_num,
        sphereStep_replace ray_sphere_tieA (by norm_num [initHitState])]
      norm_num)
